import Mathlib

/-!
Verification of `gerador_de_celulares_br.py`, a generator of synthetic
Brazilian mobile phone numbers.

Shallow embedding conventions:
* Python strings are modelled as `List Char` (`Str` below); Python slicing
  `s[a:b]` becomes `(s.drop a).take (b - a)` and `s[a:]` becomes `s.drop a`.
* Python sets of strings are modelled as `List Str` with membership tests;
  `set.add` is modelled by consing.
* The random source (`random.SystemRandom`) is modelled by passing the stream
  of drawn values as an explicit function argument (`tails` for the 8-digit
  tails drawn by `gen_local_9digits`, `nums` for the local numbers produced
  by successive calls of `gen_local_9digits` inside `generate`).
* The unbounded rejection loop of `gen_local_9digits` and the bounded `while`
  loop of `generate` are modelled with explicit fuel; for `generate` the fuel
  is initialised to the attempt budget `max_attempts`, which makes the fuel
  guard coincide exactly with the `attempts < max_attempts` loop condition.
-/

namespace GeradorBR

/-- Python strings are modelled as lists of characters. -/
abbrev Str := List Char

/-- A generated phone record `(e164, nacional, ddd, numero)`, the tuple
returned by `gen_number_for_ddd` in the source. -/
abbrev Rec4 := Str × Str × Str × Str

/-- Python `int(c)` for a single digit character: the digit value of `c`. -/
def digitVal (c : Char) : Nat := c.toNat - ('0').toNat

/-- Embedding of `is_trivially_invalid(seq)` (source lines 59-67):
`len(set(seq)) == 1` is the cardinality of the set of characters; `inc`/`dec`
check every adjacent pair (`zip(seq, seq[1:])`) for a difference of exactly
`+1` / `-1` between the integer values of the digits; the final test fires
only when `len(seq) >= 6`. -/
def is_trivially_invalid (seq : Str) : Bool :=
  if seq.toFinset.card = 1 then
    true
  else
    let inc := (seq.zip seq.tail).all
      (fun ab => (digitVal ab.2 : Int) - (digitVal ab.1 : Int) == 1)
    let dec := (seq.zip seq.tail).all
      (fun ab => (digitVal ab.1 : Int) - (digitVal ab.2 : Int) == 1)
    if 6 ≤ seq.length ∧ (inc = true ∨ dec = true) then true else false

/-- Embedding of `gen_local_9digits()` (source lines 70-77).  The random
8-digit tails drawn from `sysrand` are passed as the stream `tails`; the
unbounded `while` rejection loop is given explicit fuel and returns `none`
when the fuel runs out (the source loops forever instead, relying on the
filter's low rejection probability).  Iteration `j` of the loop uses
`tails j`. -/
def gen_local_9digits (tails : Nat → Str) : Nat → Option Str
  | 0 => none
  | fuel + 1 =>
    let seq := '9' :: tails 0
    if is_trivially_invalid seq then
      gen_local_9digits (fun k => tails (k + 1)) fuel
    else
      some seq

/-- Embedding of `gen_number_for_ddd(ddd)` (source lines 80-85) with the
random local number `numero` (the value produced by `gen_local_9digits`)
passed explicitly.  `numero[0]` is modelled as `numero.take 1` (identical for
the non-empty strings the generator produces; Python would raise on `""`),
`numero[1:5]` as `(numero.drop 1).take 4` and `numero[5:]` as
`numero.drop 5`. -/
def gen_number_for_ddd (ddd : Str) (numero : Str) : Rec4 :=
  let e164 := "+55".data ++ ddd ++ numero
  let nacional := "(".data ++ ddd ++ ") ".data ++ numero.take 1 ++ " ".data
    ++ ((numero.drop 1).take 4) ++ "-".data ++ numero.drop 5
  (e164, nacional, ddd, numero)

/-- One step of the `while` loop of `generate` (source lines 95-104), with
explicit fuel.  State: `results`, `seen`, the round-robin index `i` and the
`attempts` counter.  Besides the source's `results` and final `attempts`, the
loop also returns an instrumentation trace listing, for each attempt, the
area code used and whether the attempt was accepted (`true`) or discarded as
a duplicate (`false`); the source computes no such trace, it is recorded only
so that the area-code cycling behaviour can be stated.  The attempt performed
when the counter reads `attempts` calls `gen_local_9digits` once, modelled as
consuming `nums attempts`. -/
def generate_loop (nums : Nat → Str) (ddds : List Str) (qtd : Nat)
    (dedup : Bool) (max_attempts : Nat) :
    Nat → List Rec4 → List Str → Nat → Nat → List Rec4 × Nat × List (Str × Bool)
  | 0, results, _, _, attempts => (results, attempts, [])
  | fuel + 1, results, seen, i, attempts =>
    if results.length < qtd ∧ attempts < max_attempts then
      let ddd := ddds.getD (i % ddds.length) []
      let rec4 := gen_number_for_ddd ddd (nums attempts)
      if dedup = true ∧ rec4.1 ∈ seen then
        let r := generate_loop nums ddds qtd dedup max_attempts fuel
          results seen i (attempts + 1)
        (r.1, r.2.1, (ddd, false) :: r.2.2)
      else
        let seen' := if dedup then rec4.1 :: seen else seen
        let r := generate_loop nums ddds qtd dedup max_attempts fuel
          (results ++ [rec4]) seen' (i + 1) (attempts + 1)
        (r.1, r.2.1, (ddd, true) :: r.2.2)
    else
      (results, attempts, [])

/-- Result of a `generate` run: the returned `results` list, the final value
of the `attempts` counter, the per-attempt instrumentation trace, and the
shortfall warning printed on source line 106 (modelled as an optional triple
`(produced, requested, attempts)`). -/
structure GenResult where
  results : List Rec4
  attempts : Nat
  trace : List (Str × Bool)
  aviso : Option (Nat × Nat × Nat)
  deriving Repr, DecidableEq

/-- Embedding of `generate(ddds, qtd, dedup)` (source lines 88-107).  The
stream `nums` supplies the successive values of `gen_local_9digits()`.  The
fuel handed to the loop equals the attempt budget, so the loop stops exactly
when `len(results) < qtd and attempts < max_attempts` fails. -/
def generate (nums : Nat → Str) (ddds : List Str) (qtd : Nat)
    (dedup : Bool) : GenResult :=
  let max_attempts := max (qtd * 20) 200
  let r := generate_loop nums ddds qtd dedup max_attempts max_attempts [] [] 0 0
  { results := r.1
    attempts := r.2.1
    trace := r.2.2
    aviso := if r.1.length < qtd then some (r.1.length, qtd, r.2.1) else none }

/-- Number of accepted attempts recorded in a trace. -/
def countAccepted (t : List (Str × Bool)) : Nat :=
  (t.filter (fun a => a.2)).length

/-- Modelled from the spec (section 8, "Formatting round-trip"): the national
string reconstructed from an `e164` string, by stripping the leading
`"+55" ++ ddd` and re-splitting the remaining nine digits per the national
format rule of section 4.4. -/
def reconstruct_national (ddd : Str) (e164 : Str) : Str :=
  let r := e164.drop ("+55".data ++ ddd).length
  "(".data ++ ddd ++ ") ".data ++ r.take 1 ++ " ".data
    ++ ((r.drop 1).take 4) ++ "-".data ++ ((r.drop 5).take 4)

/-! ## Helper lemmas -/

/-- A character list maps to a singleton character set exactly when it is
non-empty and all of its characters coincide. -/
theorem toFinset_card_one_iff (s : Str) (h : s ≠ []) :
    s.toFinset.card = 1 ↔ ∀ c ∈ s, ∀ d ∈ s, c = d := by
  constructor
  · intro hc c hcs d hds
    obtain ⟨a, ha⟩ := Finset.card_eq_one.mp hc
    have h1 : c ∈ s.toFinset := List.mem_toFinset.mpr hcs
    have h2 : d ∈ s.toFinset := List.mem_toFinset.mpr hds
    rw [ha, Finset.mem_singleton] at h1 h2
    rw [h1, h2]
  · intro hall
    obtain ⟨a, t, rfl⟩ := List.exists_cons_of_ne_nil h
    apply Finset.card_eq_one.mpr
    refine ⟨a, ?_⟩
    ext x
    simp only [List.mem_toFinset, Finset.mem_singleton]
    constructor
    · intro hx
      exact hall x hx a (List.mem_cons_self a t)
    · intro hx
      rw [hx]
      exact List.mem_cons_self a t

/-- A boolean check over all adjacent pairs (Python's
`all(... for a, b in zip(seq, seq[1:]))`) is the chain predicate on the
list. -/
theorem zip_tail_all_iff_chain (p : Char → Char → Bool) :
    ∀ s : Str, ((s.zip s.tail).all (fun ab => p ab.1 ab.2) = true ↔
      List.Chain' (fun a b => p a b = true) s)
  | [] => by simp
  | [a] => by simp
  | a :: b :: t => by
    have ih := zip_tail_all_iff_chain p (b :: t)
    simp only [List.tail_cons, List.zip_cons_cons, List.all_cons,
      Bool.and_eq_true, List.chain'_cons] at *
    exact and_congr Iff.rfl ih

/-- Chains for pointwise-equivalent relations are equivalent. -/
theorem chain_iff_of_pointwise {P Q : Char → Char → Prop} (s : Str)
    (h : ∀ a b, P a b ↔ Q a b) : List.Chain' P s ↔ List.Chain' Q s :=
  ⟨fun hc => hc.imp fun a b => (h a b).mp, fun hc => hc.imp fun a b => (h a b).mpr⟩

theorem countAccepted_cons_true (d : Str) (t : List (Str × Bool)) :
    countAccepted ((d, true) :: t) = countAccepted t + 1 := by
  simp [countAccepted]

theorem countAccepted_cons_false (d : Str) (t : List (Str × Bool)) :
    countAccepted ((d, false) :: t) = countAccepted t := by
  simp [countAccepted]

/-- Unfolding equation for one iteration of the `generate` loop. -/
theorem generate_loop_succ (nums : Nat → Str) (ddds : List Str) (qtd : Nat)
    (dedup : Bool) (M f : Nat) (results : List Rec4) (seen : List Str)
    (i attempts : Nat) :
    generate_loop nums ddds qtd dedup M (f + 1) results seen i attempts =
      if results.length < qtd ∧ attempts < M then
        let ddd := ddds.getD (i % ddds.length) []
        let rec4 := gen_number_for_ddd ddd (nums attempts)
        if dedup = true ∧ rec4.1 ∈ seen then
          let r := generate_loop nums ddds qtd dedup M f results seen i (attempts + 1)
          (r.1, r.2.1, (ddd, false) :: r.2.2)
        else
          let seen' := if dedup then rec4.1 :: seen else seen
          let r := generate_loop nums ddds qtd dedup M f (results ++ [rec4])
            seen' (i + 1) (attempts + 1)
          (r.1, r.2.1, (ddd, true) :: r.2.2)
      else (results, attempts, []) := rfl

/-- The area code used at position `k` of the loop's trace is indexed by the
entry index `i` plus the number of attempts accepted before `k`: the index
advances only on accepted attempts. -/
theorem generate_loop_trace (nums : Nat → Str) (ddds : List Str) (qtd : Nat)
    (dedup : Bool) (M : Nat) :
    ∀ (fuel : Nat) (results : List Rec4) (seen : List Str) (i attempts k : Nat),
      k < (generate_loop nums ddds qtd dedup M fuel results seen i attempts).2.2.length →
      ((generate_loop nums ddds qtd dedup M fuel results seen i attempts).2.2.getD k ([], false)).1 =
        ddds.getD ((i + countAccepted
          ((generate_loop nums ddds qtd dedup M fuel results seen i attempts).2.2.take k)) % ddds.length) [] := by
  intro fuel
  induction fuel with
  | zero =>
    intro results seen i attempts k hk
    simp [generate_loop] at hk
  | succ f ih =>
    intro results seen i attempts k hk
    by_cases hc : results.length < qtd ∧ attempts < M
    · by_cases hd : dedup = true ∧
          (gen_number_for_ddd (ddds.getD (i % ddds.length) []) (nums attempts)).1 ∈ seen
      · simp only [generate_loop_succ, if_pos hc, if_pos hd] at hk ⊢
        cases k with
        | zero =>
          simp [countAccepted]
        | succ k' =>
          simp only [List.getD_cons_succ, List.take_succ_cons, countAccepted_cons_false]
          simp only [List.length_cons, Nat.succ_lt_succ_iff] at hk
          exact ih results seen i (attempts + 1) k' hk
      · simp only [generate_loop_succ, if_pos hc, if_neg hd] at hk ⊢
        cases k with
        | zero =>
          simp [countAccepted]
        | succ k' =>
          simp only [List.getD_cons_succ, List.take_succ_cons, countAccepted_cons_true]
          simp only [List.length_cons, Nat.succ_lt_succ_iff] at hk
          rw [ih _ _ _ _ k' hk]
          congr 2
          omega
    · simp only [generate_loop_succ, if_neg hc] at hk
      simp at hk

/-- Loop invariant for deduplication: if the accumulated `results` have
pairwise-distinct E.164 fields, all of them recorded in `seen`, then the
final `results` have pairwise-distinct E.164 fields. -/
theorem generate_loop_nodup (nums : Nat → Str) (ddds : List Str) (qtd : Nat)
    (dedup : Bool) (M : Nat) (hdt : dedup = true) :
    ∀ (fuel : Nat) (results : List Rec4) (seen : List Str) (i attempts : Nat),
      (results.map (fun r => r.1)).Nodup →
      (∀ e ∈ results.map (fun r => r.1), e ∈ seen) →
      ((generate_loop nums ddds qtd dedup M fuel results seen i attempts).1.map
        (fun r => r.1)).Nodup := by
  intro fuel
  induction fuel with
  | zero =>
    intro results seen i attempts hnd _
    simpa [generate_loop] using hnd
  | succ f ih =>
    intro results seen i attempts hnd hsub
    by_cases hc : results.length < qtd ∧ attempts < M
    · by_cases hd : dedup = true ∧
          (gen_number_for_ddd (ddds.getD (i % ddds.length) []) (nums attempts)).1 ∈ seen
      · simp only [generate_loop_succ, if_pos hc, if_pos hd]
        exact ih results seen i (attempts + 1) hnd hsub
      · have hmem : (gen_number_for_ddd (ddds.getD (i % ddds.length) []) (nums attempts)).1 ∉ seen :=
          fun hm => hd ⟨hdt, hm⟩
        have hnd' : ((results ++ [gen_number_for_ddd (ddds.getD (i % ddds.length) []) (nums attempts)]).map
            (fun r => r.1)).Nodup := by
          rw [List.map_append, List.nodup_append]
          refine ⟨hnd, List.nodup_singleton _, ?_⟩
          intro e he he'
          simp only [List.map_cons, List.map_nil, List.mem_singleton] at he'
          exact hmem (he' ▸ hsub e he)
        have hsub' : ∀ e ∈ (results ++ [gen_number_for_ddd (ddds.getD (i % ddds.length) []) (nums attempts)]).map
            (fun r => r.1),
            e ∈ (gen_number_for_ddd (ddds.getD (i % ddds.length) []) (nums attempts)).1 :: seen := by
          intro e he
          rw [List.map_append, List.mem_append] at he
          rcases he with he | he
          · exact List.mem_cons_of_mem _ (hsub e he)
          · simp only [List.map_cons, List.map_nil, List.mem_singleton] at he
            exact he ▸ List.mem_cons_self _ _
        simp only [generate_loop_succ, if_pos hc, if_neg hd, if_pos hdt]
        exact ih _ _ (i + 1) (attempts + 1) hnd' hsub'
    · simp only [generate_loop_succ, if_neg hc]
      exact hnd

/-- Loop invariant for the attempt budget: starting with at most `qtd`
results and `attempts + fuel = M`, the loop ends with at most `qtd` results,
at most `M` attempts, and it stops only because one of the two loop
conditions fails. -/
theorem generate_loop_bounds (nums : Nat → Str) (ddds : List Str) (qtd : Nat)
    (dedup : Bool) (M : Nat) :
    ∀ (fuel : Nat) (results : List Rec4) (seen : List Str) (i attempts : Nat),
      results.length ≤ qtd → attempts + fuel = M →
      (generate_loop nums ddds qtd dedup M fuel results seen i attempts).1.length ≤ qtd ∧
      (generate_loop nums ddds qtd dedup M fuel results seen i attempts).2.1 ≤ M ∧
      ((generate_loop nums ddds qtd dedup M fuel results seen i attempts).1.length = qtd ∨
        (generate_loop nums ddds qtd dedup M fuel results seen i attempts).2.1 = M) := by
  intro fuel
  induction fuel with
  | zero =>
    intro results seen i attempts hlen hfuel
    simp only [generate_loop]
    omega
  | succ f ih =>
    intro results seen i attempts hlen hfuel
    by_cases hc : results.length < qtd ∧ attempts < M
    · by_cases hd : dedup = true ∧
          (gen_number_for_ddd (ddds.getD (i % ddds.length) []) (nums attempts)).1 ∈ seen
      · simp only [generate_loop_succ, if_pos hc, if_pos hd]
        exact ih results seen i (attempts + 1) hlen (by omega)
      · simp only [generate_loop_succ, if_pos hc, if_neg hd]
        refine ih _ _ (i + 1) (attempts + 1) ?_ (by omega)
        simp only [List.length_append, List.length_cons, List.length_nil]
        omega
    · simp only [generate_loop_succ, if_neg hc]
      omega

/-- Without deduplication every attempt is accepted, so the number of results
is the requested quantity capped by the remaining fuel and budget. -/
theorem generate_loop_len_nodedup (nums : Nat → Str) (ddds : List Str)
    (qtd : Nat) (dedup : Bool) (M : Nat) (hdf : dedup = false) :
    ∀ (fuel : Nat) (results : List Rec4) (seen : List Str) (i attempts : Nat),
      results.length ≤ qtd →
      (generate_loop nums ddds qtd dedup M fuel results seen i attempts).1.length =
        min qtd (results.length + min fuel (M - attempts)) := by
  intro fuel
  induction fuel with
  | zero =>
    intro results seen i attempts hlen
    simp only [generate_loop]
    omega
  | succ f ih =>
    intro results seen i attempts hlen
    by_cases hc : results.length < qtd ∧ attempts < M
    · have hd : ¬ (dedup = true ∧
          (gen_number_for_ddd (ddds.getD (i % ddds.length) []) (nums attempts)).1 ∈ seen) := by
        rw [hdf]
        simp
      have hd' : ¬ (dedup = true) := by
        rw [hdf]
        simp
      simp only [generate_loop_succ, if_pos hc, if_neg hd, if_neg hd']
      rw [ih _ _ (i + 1) (attempts + 1) (by simp; omega)]
      simp only [List.length_append, List.length_cons, List.length_nil]
      omega
    · simp only [generate_loop_succ, if_neg hc]
      omega

/-- Loop invariant for record shape: every record ever appended comes from
`gen_number_for_ddd` applied to an area code of `ddds` and a 9-character
local number, so the field-consistency equations hold for every final
record. -/
theorem generate_loop_fields (nums : Nat → Str) (ddds : List Str) (qtd : Nat)
    (dedup : Bool) (M : Nat) (hne : ddds ≠ [])
    (hnum : ∀ k, (nums k).length = 9) :
    ∀ (fuel : Nat) (results : List Rec4) (seen : List Str) (i attempts : Nat),
      (∀ r ∈ results, r.1 = "+55".data ++ r.2.2.1 ++ r.2.2.2 ∧
        r.2.1 = "(".data ++ r.2.2.1 ++ ") ".data ++ r.2.2.2.take 1 ++ " ".data
          ++ ((r.2.2.2.drop 1).take 4) ++ "-".data ++ ((r.2.2.2.drop 5).take 4) ∧
        r.2.2.1 ∈ ddds) →
      ∀ r ∈ (generate_loop nums ddds qtd dedup M fuel results seen i attempts).1,
        r.1 = "+55".data ++ r.2.2.1 ++ r.2.2.2 ∧
        r.2.1 = "(".data ++ r.2.2.1 ++ ") ".data ++ r.2.2.2.take 1 ++ " ".data
          ++ ((r.2.2.2.drop 1).take 4) ++ "-".data ++ ((r.2.2.2.drop 5).take 4) ∧
        r.2.2.1 ∈ ddds := by
  intro fuel
  induction fuel with
  | zero =>
    intro results seen i attempts hall
    simpa [generate_loop] using hall
  | succ f ih =>
    intro results seen i attempts hall
    by_cases hc : results.length < qtd ∧ attempts < M
    · by_cases hd : dedup = true ∧
          (gen_number_for_ddd (ddds.getD (i % ddds.length) []) (nums attempts)).1 ∈ seen
      · simp only [generate_loop_succ, if_pos hc, if_pos hd]
        exact ih results seen i (attempts + 1) hall
      · simp only [generate_loop_succ, if_pos hc, if_neg hd]
        refine ih _ _ (i + 1) (attempts + 1) ?_
        intro r hr
        rw [List.mem_append] at hr
        rcases hr with hr | hr
        · exact hall r hr
        · simp only [List.mem_singleton] at hr
          subst hr
          have hmem : ddds.getD (i % ddds.length) [] ∈ ddds := by
            have hpos : 0 < ddds.length := List.length_pos.mpr hne
            rw [List.getD_eq_getElem _ _ (Nat.mod_lt i hpos)]
            exact List.getElem_mem _
          have htake : ((nums attempts).drop 5).take 4 = (nums attempts).drop 5 := by
            apply List.take_of_length_le
            simp [hnum attempts]
          refine ⟨rfl, ?_, hmem⟩
          simp only [gen_number_for_ddd, htake]
    · simp only [generate_loop_succ, if_neg hc]
      exact hall

/-! ## Claims -/

/-- C1 (amended): in `generate` with deduplication, the round-robin index `i`
advances only on accepted attempts (the source increments `i` together with
`results.append`, and `continue`s past it on a duplicate).  Hence the area
code used on attempt `k` (0-indexed) is
`areaCodes[(number of accepted attempts among the first k) mod length]`, not
`areaCodes[k mod length]` as claimed. -/
theorem C1_round_robin_on_accepts (nums : Nat → Str) (ddds : List Str)
    (qtd : Nat) (dedup : Bool) (hne : ddds ≠ []) (k : Nat)
    (hk : k < (generate nums ddds qtd dedup).trace.length) :
    ((generate nums ddds qtd dedup).trace.getD k ([], false)).1 =
      ddds.getD (countAccepted ((generate nums ddds qtd dedup).trace.take k)
        % ddds.length) [] := by
  have h := generate_loop_trace nums ddds qtd dedup (max (qtd * 20) 200)
    (max (qtd * 20) 200) [] [] 0 0 k hk
  rw [Nat.zero_add] at h
  exact h

/-- C1, counterexample to the claim as stated: with area codes
`["11", "12"]`, quantity 3, deduplication on and a stream that repeats the
same local number three times, the 4th attempt (k = 3) uses area code `"11"`,
not `areaCodes[3 mod 2] = "12"`: the rejected duplicate on attempt 3 did not
advance the index. -/
theorem C1_counterexample :
    ¬ (∀ k, k < (generate
          (fun j => if j < 3 then "912345670".data else "912345671".data)
          (["11".data, "12".data]) 3 true).trace.length →
        ((generate
          (fun j => if j < 3 then "912345670".data else "912345671".data)
          (["11".data, "12".data]) 3 true).trace.getD k ([], false)).1 =
          (["11".data, "12".data] : List Str).getD
            (k % (["11".data, "12".data] : List Str).length) []) := by
  decide

/-- C1, witness: the amended statement applied to the concrete run above at
attempt k = 3. -/
theorem C1_witness :
    ((generate (fun j => if j < 3 then "912345670".data else "912345671".data)
        (["11".data, "12".data]) 3 true).trace.getD 3 ([], false)).1 =
      (["11".data, "12".data] : List Str).getD
        (countAccepted ((generate
          (fun j => if j < 3 then "912345670".data else "912345671".data)
          (["11".data, "12".data]) 3 true).trace.take 3)
          % (["11".data, "12".data] : List Str).length) [] :=
  C1_round_robin_on_accepts _ _ 3 true (by decide) 3 (by decide)

/-- C2, counterexample to the claim as stated: for area code `"11"` and
local number `"912345670"` the produced E.164 string is the concatenation
`"+55" ++ ddd ++ numero`, but it has 13 characters after the `'+'`, not 14
(it has 14 characters in total, the `'+'` included). -/
theorem C2_counterexample :
    (gen_number_for_ddd ("11".data) ("912345670".data)).1 =
      "+55".data ++ "11".data ++ "912345670".data ∧
    (gen_number_for_ddd ("11".data) ("912345670".data)).1.tail.length = 13 ∧
    ¬ ((gen_number_for_ddd ("11".data) ("912345670".data)).1.tail.length = 14) := by
  decide

/-- C2 (amended): for every 2-character area code and 9-character local
number, the E.164 value is the concatenation of `"+55"`, the area code and
the local number; it starts with `'+'` and has exactly 14 characters in
total, i.e. 13 characters after the `'+'`. -/
theorem C2_e164_format (ddd numero : Str) (h1 : ddd.length = 2)
    (h2 : numero.length = 9) :
    (gen_number_for_ddd ddd numero).1 = "+55".data ++ ddd ++ numero ∧
    (gen_number_for_ddd ddd numero).1.head? = some '+' ∧
    (gen_number_for_ddd ddd numero).1.length = 14 ∧
    (gen_number_for_ddd ddd numero).1.tail.length = 13 := by
  refine ⟨rfl, rfl, ?_, ?_⟩
  · simp [gen_number_for_ddd, h1, h2]
  · simp [gen_number_for_ddd, h1, h2]

/-- C2, witness: the amended statement at `ddd = "11"`,
`numero = "912345670"`. -/
theorem C2_witness :
    (gen_number_for_ddd ("11".data) ("912345670".data)).1 =
      "+55".data ++ "11".data ++ "912345670".data ∧
    (gen_number_for_ddd ("11".data) ("912345670".data)).1.head? = some '+' ∧
    (gen_number_for_ddd ("11".data) ("912345670".data)).1.length = 14 ∧
    (gen_number_for_ddd ("11".data) ("912345670".data)).1.tail.length = 13 :=
  C2_e164_format ("11".data) ("912345670".data) (by decide) (by decide)

/-- C3: with deduplication on, the E.164 values of the returned batch are
pairwise distinct, for every non-empty area-code list, every positive
quantity and every stream of local numbers. -/
theorem C3_dedup_pairwise_distinct (nums : Nat → Str) (ddds : List Str)
    (qtd : Nat) (hne : ddds ≠ []) (hq : 0 < qtd) :
    ((generate nums ddds qtd true).results.map (fun r => r.1)).Pairwise (· ≠ ·) := by
  have h := generate_loop_nodup nums ddds qtd true (max (qtd * 20) 200) rfl
    (max (qtd * 20) 200) [] [] 0 0 (by simp) (by simp)
  exact h

/-- C3, witness: a concrete deduplicated run with a repeated candidate. -/
theorem C3_witness :
    ((generate (fun j => if j < 3 then "912345670".data else "912345671".data)
        (["11".data, "12".data]) 3 true).results.map (fun r => r.1)).Pairwise (· ≠ ·) :=
  C3_dedup_pairwise_distinct _ _ 3 (by decide) (by decide)

/-- C4: `is_trivially_invalid` returns true on a non-empty digit string iff
all characters are identical, or the string has length at least 6 and every
adjacent digit pair increases by exactly 1, or it has length at least 6 and
every adjacent digit pair decreases by exactly 1; the rule is applied to the
entire string only.  In particular it is true on `"999999999"` and
`"987654321"` and false on `"912345678"`. -/
theorem C4_trivial_filter :
    (∀ s : Str, s ≠ [] → (∀ c ∈ s, c.isDigit = true) →
      (is_trivially_invalid s = true ↔
        (∀ c ∈ s, ∀ d ∈ s, c = d) ∨
        (6 ≤ s.length ∧ List.Chain' (fun a b => digitVal b = digitVal a + 1) s) ∨
        (6 ≤ s.length ∧ List.Chain' (fun a b => digitVal a = digitVal b + 1) s))) ∧
    is_trivially_invalid ("999999999".data) = true ∧
    is_trivially_invalid ("987654321".data) = true ∧
    is_trivially_invalid ("912345678".data) = false := by
  refine ⟨?_, by decide, by decide, by decide⟩
  intro s hne hdig
  unfold is_trivially_invalid
  by_cases hcard : s.toFinset.card = 1
  · rw [if_pos hcard]
    constructor
    · intro _
      exact Or.inl ((toFinset_card_one_iff s hne).mp hcard)
    · intro _
      rfl
  · rw [if_neg hcard]
    have hinc : ((s.zip s.tail).all
        (fun ab => (digitVal ab.2 : Int) - (digitVal ab.1 : Int) == 1) = true) ↔
        List.Chain' (fun a b => digitVal b = digitVal a + 1) s :=
      (zip_tail_all_iff_chain
          (fun a b => (digitVal b : Int) - (digitVal a : Int) == 1) s).trans
        (chain_iff_of_pointwise s fun a b => by rw [beq_iff_eq]; omega)
    have hdec : ((s.zip s.tail).all
        (fun ab => (digitVal ab.1 : Int) - (digitVal ab.2 : Int) == 1) = true) ↔
        List.Chain' (fun a b => digitVal a = digitVal b + 1) s :=
      (zip_tail_all_iff_chain
          (fun a b => (digitVal a : Int) - (digitVal b : Int) == 1) s).trans
        (chain_iff_of_pointwise s fun a b => by rw [beq_iff_eq]; omega)
    have hnall : ¬ (∀ c ∈ s, ∀ d ∈ s, c = d) := fun hall =>
      hcard ((toFinset_card_one_iff s hne).mpr hall)
    constructor
    · intro htriv
      by_cases hc : 6 ≤ s.length ∧
          (((s.zip s.tail).all (fun ab => (digitVal ab.2 : Int) - (digitVal ab.1 : Int) == 1)) = true ∨
           ((s.zip s.tail).all (fun ab => (digitVal ab.1 : Int) - (digitVal ab.2 : Int) == 1)) = true)
      · rcases hc with ⟨hlen, hc⟩
        rcases hc with h1 | h1
        · exact Or.inr (Or.inl ⟨hlen, hinc.mp h1⟩)
        · exact Or.inr (Or.inr ⟨hlen, hdec.mp h1⟩)
      · rw [if_neg hc] at htriv
        exact absurd htriv (by simp)
    · intro hr
      rcases hr with h1 | ⟨hlen, h1⟩ | ⟨hlen, h1⟩
      · exact absurd h1 hnall
      · rw [if_pos ⟨hlen, Or.inl (hinc.mpr h1)⟩]
      · rw [if_pos ⟨hlen, Or.inr (hdec.mpr h1)⟩]

/-- C4, witness: the characterisation applied to `"999999999"` (all
characters identical), plus the accepted example. -/
theorem C4_witness :
    is_trivially_invalid ("999999999".data) = true ∧
    is_trivially_invalid ("912345678".data) = false :=
  ⟨(C4_trivial_filter.1 ("999999999".data) (by decide) (by decide)).mpr
     (Or.inl (by decide)),
   by decide⟩

/-- C5: every value returned by `gen_local_9digits` (for any stream of
8-digit tails and any fuel) has length 9, starts with `'9'`, consists of
decimal digits only, and is not classified as trivial by
`is_trivially_invalid`. -/
theorem C5_local_number_props (tails : Nat → Str) :
    ∀ (fuel : Nat), ∀ (s : Str),
      (∀ k, (tails k).length = 8) →
      (∀ k, ∀ c ∈ tails k, c.isDigit = true) →
      gen_local_9digits tails fuel = some s →
      s.length = 9 ∧ s.head? = some '9' ∧ (∀ c ∈ s, c.isDigit = true) ∧
        is_trivially_invalid s = false := by
  intro fuel
  induction fuel generalizing tails with
  | zero =>
    intro s _ _ hret
    exact absurd hret (by simp [gen_local_9digits])
  | succ f ih =>
    intro s hlen hdig hret
    rw [gen_local_9digits] at hret
    by_cases htriv : is_trivially_invalid ('9' :: tails 0) = true
    · rw [if_pos htriv] at hret
      exact ih (fun k => tails (k + 1)) s (fun k => hlen (k + 1))
        (fun k => hdig (k + 1)) hret
    · rw [if_neg htriv] at hret
      obtain rfl : '9' :: tails 0 = s := Option.some_injective _ hret
      refine ⟨?_, rfl, ?_, ?_⟩
      · simp [hlen 0]
      · intro c hc
        rcases List.mem_cons.mp hc with rfl | hc
        · decide
        · exact hdig 0 c hc
      · simpa using htriv

/-- C5, witness: the constant tail stream `"12345678"` yields
`"912345678"` on the first draw. -/
theorem C5_witness :
    ("912345678".data : Str).length = 9 ∧
    ("912345678".data : Str).head? = some '9' ∧
    (∀ c ∈ ("912345678".data : Str), c.isDigit = true) ∧
    is_trivially_invalid ("912345678".data) = false :=
  C5_local_number_props (fun _ => "12345678".data) 1 ("912345678".data)
    (fun k => (by decide : ("12345678".data : Str).length = 8))
    (fun k => (by decide : ∀ c ∈ ("12345678".data : Str), c.isDigit = true))
    (by decide)

/-- C6: `generate` performs at most `max(qtd * 20, 200)` attempts, never
returns more than `qtd` records, and stops only because the output reached
`qtd` or the attempts reached the budget. -/
theorem C6_attempt_budget (nums : Nat → Str) (ddds : List Str) (qtd : Nat)
    (dedup : Bool) (hne : ddds ≠ []) (hq : 0 < qtd) :
    (generate nums ddds qtd dedup).attempts ≤ max (qtd * 20) 200 ∧
    (generate nums ddds qtd dedup).results.length ≤ qtd ∧
    ((generate nums ddds qtd dedup).results.length = qtd ∨
      (generate nums ddds qtd dedup).attempts = max (qtd * 20) 200) := by
  have h := generate_loop_bounds nums ddds qtd dedup (max (qtd * 20) 200)
    (max (qtd * 20) 200) [] [] 0 0 (by simp) (by simp)
  exact ⟨h.2.1, h.1, h.2.2⟩

/-- C6, witness: a concrete run with one area code and quantity 1. -/
theorem C6_witness :
    (generate (fun _ => "912345670".data) (["11".data]) 1 true).attempts ≤ max (1 * 20) 200 ∧
    (generate (fun _ => "912345670".data) (["11".data]) 1 true).results.length ≤ 1 ∧
    ((generate (fun _ => "912345670".data) (["11".data]) 1 true).results.length = 1 ∨
      (generate (fun _ => "912345670".data) (["11".data]) 1 true).attempts = max (1 * 20) 200) :=
  C6_attempt_budget _ _ 1 true (by decide) (by decide)

/-- C7: when `generate` stops with fewer records than requested, the
shortfall warning carries exactly the produced count, the requested count and
the attempts used, and the partial batch is still the loop's output,
returned unchanged (the embedding is total: no exception exists). -/
theorem C7_shortfall_warning (nums : Nat → Str) (ddds : List Str) (qtd : Nat)
    (dedup : Bool)
    (h : (generate nums ddds qtd dedup).results.length < qtd) :
    (generate nums ddds qtd dedup).aviso =
      some ((generate nums ddds qtd dedup).results.length, qtd,
        (generate nums ddds qtd dedup).attempts) ∧
    (generate nums ddds qtd dedup).results =
      (generate_loop nums ddds qtd dedup (max (qtd * 20) 200)
        (max (qtd * 20) 200) [] [] 0 0).1 := by
  refine ⟨?_, rfl⟩
  have h' : (generate_loop nums ddds qtd dedup (max (qtd * 20) 200)
      (max (qtd * 20) 200) [] [] 0 0).1.length < qtd := h
  exact if_pos h'

/-- C7, witness: a constant stream with one area code and quantity 2
produces 1 record in 200 attempts, a shortfall. -/
theorem C7_witness :
    (generate (fun _ => "912345670".data) (["11".data]) 2 true).aviso =
      some ((generate (fun _ => "912345670".data) (["11".data]) 2 true).results.length, 2,
        (generate (fun _ => "912345670".data) (["11".data]) 2 true).attempts) ∧
    (generate (fun _ => "912345670".data) (["11".data]) 2 true).results =
      (generate_loop (fun _ => "912345670".data) (["11".data]) 2 true (max (2 * 20) 200)
        (max (2 * 20) 200) [] [] 0 0).1 :=
  C7_shortfall_warning _ _ 2 true (by decide)

/-- C8: the national string reconstructed from the E.164 string (stripping
`"+55" ++ ddd` and re-splitting the nine remaining digits) equals the
national string produced directly by `gen_number_for_ddd`. -/
theorem C8_format_roundtrip (ddd numero : Str) (h1 : ddd.length = 2)
    (h2 : numero.length = 9) (h3 : numero.head? = some '9') :
    reconstruct_national ddd (gen_number_for_ddd ddd numero).1 =
      (gen_number_for_ddd ddd numero).2.1 := by
  have hdrop : (("+55".data ++ ddd ++ numero).drop ("+55".data ++ ddd).length) = numero :=
    List.drop_left _ _
  have htake : (numero.drop 5).take 4 = numero.drop 5 := by
    apply List.take_of_length_le
    simp [h2]
  simp only [reconstruct_national, gen_number_for_ddd, hdrop, htake]

/-- C8, witness: the round-trip at `ddd = "11"`, `numero = "912345670"`. -/
theorem C8_witness :
    reconstruct_national ("11".data)
        (gen_number_for_ddd ("11".data) ("912345670".data)).1 =
      (gen_number_for_ddd ("11".data) ("912345670".data)).2.1 :=
  C8_format_roundtrip ("11".data) ("912345670".data) (by decide) (by decide) (by decide)

/-- C9: with deduplication off, `generate` returns exactly `qtd` records for
every non-empty area-code list: every attempt is accepted and the budget
`max(qtd * 20, 200)` is at least `qtd`. -/
theorem C9_no_dedup_exact_quantity (nums : Nat → Str) (ddds : List Str)
    (qtd : Nat) (hne : ddds ≠ []) :
    (generate nums ddds qtd false).results.length = qtd := by
  have h := generate_loop_len_nodedup nums ddds qtd false (max (qtd * 20) 200)
    rfl (max (qtd * 20) 200) [] [] 0 0 (by simp)
  have h2 : (generate nums ddds qtd false).results.length =
      min qtd (0 + min (max (qtd * 20) 200) (max (qtd * 20) 200 - 0)) := h
  rw [h2]
  omega

/-- C9, witness: a constant stream, one area code, quantity 3, dedup off. -/
theorem C9_witness :
    (generate (fun _ => "912345670".data) (["11".data]) 3 false).results.length = 3 :=
  C9_no_dedup_exact_quantity _ _ 3 (by decide)

/-- C10: every record `(e164, nacional, ddd, numero)` in a returned batch
satisfies `e164 = "+55" ++ ddd ++ numero`,
`nacional = "(" ++ ddd ++ ") " ++ numero[0] ++ " " ++ numero[1:5] ++ "-" ++ numero[5:9]`,
and its `ddd` belongs to the input area-code list. -/
theorem C10_record_field_consistency (nums : Nat → Str) (ddds : List Str)
    (qtd : Nat) (dedup : Bool) (hne : ddds ≠ [])
    (hnum : ∀ k, (nums k).length = 9) :
    ∀ r ∈ (generate nums ddds qtd dedup).results,
      r.1 = "+55".data ++ r.2.2.1 ++ r.2.2.2 ∧
      r.2.1 = "(".data ++ r.2.2.1 ++ ") ".data ++ r.2.2.2.take 1 ++ " ".data
        ++ ((r.2.2.2.drop 1).take 4) ++ "-".data ++ ((r.2.2.2.drop 5).take 4) ∧
      r.2.2.1 ∈ ddds :=
  generate_loop_fields nums ddds qtd dedup (max (qtd * 20) 200) hne hnum
    (max (qtd * 20) 200) [] [] 0 0 (by simp)

/-- C10, witness: the field-consistency invariant at the single record of a
concrete run. -/
theorem C10_witness :
    (gen_number_for_ddd ("11".data) ("912345670".data)).1 =
      "+55".data ++ (gen_number_for_ddd ("11".data) ("912345670".data)).2.2.1
        ++ (gen_number_for_ddd ("11".data) ("912345670".data)).2.2.2 ∧
    (gen_number_for_ddd ("11".data) ("912345670".data)).2.1 =
      "(".data ++ (gen_number_for_ddd ("11".data) ("912345670".data)).2.2.1
        ++ ") ".data ++ (gen_number_for_ddd ("11".data) ("912345670".data)).2.2.2.take 1
        ++ " ".data
        ++ (((gen_number_for_ddd ("11".data) ("912345670".data)).2.2.2.drop 1).take 4)
        ++ "-".data
        ++ (((gen_number_for_ddd ("11".data) ("912345670".data)).2.2.2.drop 5).take 4) ∧
    (gen_number_for_ddd ("11".data) ("912345670".data)).2.2.1 ∈ (["11".data] : List Str) :=
  C10_record_field_consistency _ _ 1 true (by decide)
    (fun k => (by decide : ("912345670".data : Str).length = 9))
    (gen_number_for_ddd ("11".data) ("912345670".data)) (by decide)

end GeradorBR
